import Mathlib

/-!
Verification development for the repoprotector branch-protection tool.

The TypeScript source is embedded shallowly:
* Loosely-typed JavaScript values (the raw GitHub API payloads and the
  records built by `transformProtectionResponse`, `cleanInput`,
  `diffProtection`, the editor's `setProtection`) are modelled by the
  inductive `JSValue`; a JavaScript object is an association list of
  string keys to values, where a key mapped to `JSValue.undef` models a
  property explicitly assigned `undefined` (still enumerated by
  `Object.keys`), and an absent key reads as `undefined` via `lookupD`.
* Typed interfaces from `types.ts` that the claims quantify over are
  mirrored as Lean structures.
* Async network / rendering effects are abstracted: the injected
  apply-one call becomes an `Except String Unit`-valued parameter, and
  fetches become `Except`-valued parameters to the state transitions.
-/

namespace RepoProtector

/-- A JavaScript runtime value, as far as the modelled code inspects one:
`undefined`, `null`, booleans, (integer) numbers, strings, arrays and
plain objects (association lists preserving key insertion order). -/
inductive JSValue where
  | undef
  | null
  | bool (b : Bool)
  | num (n : Int)
  | str (s : String)
  | arr (elems : List JSValue)
  | obj (fields : List (String × JSValue))

/-- A JavaScript object record: ordered key/value pairs. -/
abbrev JSRecord := List (String × JSValue)

/-- Property read `r[k]`: the first binding of `k`, `undefined` if absent. -/
def lookupD : JSRecord → String → JSValue
  | [], _ => .undef
  | (k', v) :: rest, k => if k' = k then v else lookupD rest k

/-- Model of `Object.keys r` (insertion order; includes keys bound to `undefined`). -/
def keysOf (r : JSRecord) : List String := r.map Prod.fst

/-- The `value === undefined` test. -/
def JSValue.isUndef : JSValue → Bool
  | .undef => true
  | _ => false

/-- JavaScript truthiness (the `raw.required_signatures ? _ : _` test). -/
def truthy : JSValue → Bool
  | .undef => false
  | .null => false
  | .bool b => b
  | .num n => n != 0
  | .str s => s ≠ ""
  | .arr _ => true
  | .obj _ => true

/-- Nullish coalescing `v ?? d`. -/
def nullishD (v : JSValue) (d : JSValue) : JSValue :=
  match v with
  | .undef => d
  | .null => d
  | v => v

mutual
/-- Model of `JSON.stringify` on the values the modelled code compares; `none` is
the JavaScript `undefined` result (for an `undefined` argument). -/
def stringify : JSValue → Option String
  | .undef => none
  | .null => some "null"
  | .bool b => some (if b then "true" else "false")
  | .num n => some (toString n)
  | .str s => some ("\"" ++ s ++ "\"")
  | .arr es => some ("[" ++ String.intercalate "," (stringifyElems es) ++ "]")
  | .obj fs => some ("\x7b" ++ String.intercalate "," (stringifyFields fs) ++ "\x7d")

/-- Array elements: `undefined` entries render as `null`. -/
def stringifyElems : List JSValue → List String
  | [] => []
  | v :: rest => (stringify v).getD "null" :: stringifyElems rest

/-- Object entries: properties with `undefined` values are omitted. -/
def stringifyFields : List (String × JSValue) → List String
  | [] => []
  | (k, v) :: rest =>
    match stringify v with
    | none => stringifyFields rest
    | some s => ("\"" ++ k ++ "\":" ++ s) :: stringifyFields rest
end

/-! ## `src/api/github.ts`: response normalization and submission cleaning -/

/-- Model of `extractEnabled` (github.ts): `null`/`undefined` map to `null`; an
object value owning an `enabled` property yields that property's value;
every other value (booleans, but also numbers, strings, arrays, objects
without `enabled`) is returned unchanged. -/
def extractEnabled : JSValue → JSValue
  | .undef => .null
  | .null => .null
  | .obj fs => if (keysOf fs).contains "enabled" then lookupD fs "enabled" else .obj fs
  | v => v

/-- The six independent boolean toggles of a protection config. -/
def flagKeys : List String :=
  ["enforce_admins", "required_linear_history", "allow_force_pushes",
   "allow_deletions", "block_creations", "required_conversation_resolution"]

/-- Model of `transformProtectionResponse` (github.ts): builds the normalized live
`BranchProtection` record from a raw API response, assigning every key
explicitly (so a field the API omitted is present with value `undefined`,
except the flags routed through `extractEnabled`, which become `null`). -/
def transformProtectionResponse (raw : JSRecord) : JSRecord :=
  [ ("url", lookupD raw "url"),
    ("required_pull_request_reviews", lookupD raw "required_pull_request_reviews"),
    ("required_status_checks", lookupD raw "required_status_checks"),
    ("enforce_admins", extractEnabled (lookupD raw "enforce_admins")),
    ("required_linear_history", extractEnabled (lookupD raw "required_linear_history")),
    ("allow_force_pushes", extractEnabled (lookupD raw "allow_force_pushes")),
    ("allow_deletions", extractEnabled (lookupD raw "allow_deletions")),
    ("block_creations", extractEnabled (lookupD raw "block_creations")),
    ("required_conversation_resolution",
      extractEnabled (lookupD raw "required_conversation_resolution")),
    ("restrictions", lookupD raw "restrictions"),
    ("required_signatures",
      if truthy (lookupD raw "required_signatures") then
        .obj [("enabled", extractEnabled (lookupD raw "required_signatures"))]
      else .null),
    ("lock_branch", extractEnabled (lookupD raw "lock_branch")) ]

/-- The `cleanInput` record built by `updateBranchProtection` (github.ts):
the submission shape sent to the API, defaulting each field with `??`.
Exactly these nine keys are emitted, in this order. -/
def cleanInput (protection : JSRecord) : JSRecord :=
  [ ("required_pull_request_reviews",
      nullishD (lookupD protection "required_pull_request_reviews") .null),
    ("required_status_checks",
      nullishD (lookupD protection "required_status_checks") .null),
    ("enforce_admins", nullishD (lookupD protection "enforce_admins") (.bool false)),
    ("required_linear_history",
      nullishD (lookupD protection "required_linear_history") (.bool false)),
    ("allow_force_pushes", nullishD (lookupD protection "allow_force_pushes") (.bool false)),
    ("allow_deletions", nullishD (lookupD protection "allow_deletions") (.bool false)),
    ("block_creations", nullishD (lookupD protection "block_creations") (.bool false)),
    ("required_conversation_resolution",
      nullishD (lookupD protection "required_conversation_resolution") (.bool true)),
    ("restrictions", nullishD (lookupD protection "restrictions") .null) ]

/-! ## `applyProtectionToMultiple` (github.ts) -/

/-- One `{owner, repo, branch}` batch-apply target. -/
structure Target where
  owner : String
  repo : String
  branch : String

/-- The repository identity literal pushed into each `ApplyResult`
(`applyProtectionToMultiple` builds only these fields of `Repository`). -/
structure ResultRepo where
  name : String
  full_name : String
  owner_login : String
deriving DecidableEq

/-- Model of `ApplyResult` (types.ts); `error` is `none` when the optional `error`
property is absent. -/
structure ApplyResult where
  repo : ResultRepo
  branch : String
  success : Bool
  error : Option String
deriving DecidableEq

/-- Model of `applyProtectionToMultiple` (github.ts): iterates the targets in
order, pushing one result per target; `applyOne` abstracts the awaited
`updateBranchProtection` call for the fixed proposed config (`.ok` when
it returns, `.error msg` when it throws with message `msg`). -/
def applyProtectionToMultiple (applyOne : Target → Except String Unit)
    (targets : List Target) : List ApplyResult :=
  targets.foldl (fun results target =>
    match applyOne target with
    | .ok _ =>
        results ++ [{ repo := { name := target.repo,
                                full_name := target.owner ++ "/" ++ target.repo,
                                owner_login := target.owner },
                      branch := target.branch, success := true, error := none }]
    | .error e =>
        results ++ [{ repo := { name := target.repo,
                                full_name := target.owner ++ "/" ++ target.repo,
                                owner_login := target.owner },
                      branch := target.branch, success := false, error := some e }]) []

/-- The success tally of `renderResults` (PreviewPane.ts). -/
def succeededCount (results : List ApplyResult) : Nat :=
  (results.filter (·.success)).length

/-- The failure tally of `renderResults` (PreviewPane.ts). -/
def failedCount (results : List ApplyResult) : Nat :=
  (results.filter (fun r => !r.success)).length

/-! ## `diffProtection` (PreviewPane.ts) -/

/-- The structured delta returned by `diffProtection`. -/
structure DiffResult where
  added : List String
  removed : List String
  changed : List String
deriving DecidableEq

/-- Model of `new Set([...keysA, ...keysB])` iterated in insertion order. -/
def unionKeys (a b : List String) : List String :=
  (a ++ b).foldl (fun acc k => if acc.contains k then acc else acc ++ [k]) []

/-- Model of `diffProtection` (PreviewPane.ts): over the union of keys of
`current` (treated as `{}` when `null`) and `proposed`, skipping `url`;
a key reading `undefined` on exactly one side is added/removed, and
otherwise the two values are compared by `JSON.stringify`. -/
def diffProtection (current : Option JSRecord) (proposed : JSRecord) : DiffResult :=
  let keys := unionKeys (keysOf (current.getD [])) (keysOf proposed)
  keys.foldl (fun acc key =>
    if key = "url" then acc
    else
      let currentVal := match current with
        | none => JSValue.undef
        | some c => lookupD c key
      let proposedVal := lookupD proposed key
      if currentVal.isUndef && !proposedVal.isUndef then
        { acc with added := acc.added ++ [key] }
      else if !currentVal.isUndef && proposedVal.isUndef then
        { acc with removed := acc.removed ++ [key] }
      else if stringify currentVal != stringify proposedVal then
        { acc with changed := acc.changed ++ [key] }
      else acc) ⟨[], [], []⟩

/-! ## `ProtectionEditor.ts`: editor seeding, integer edits, workflow picker -/

/-- Model of `createDefaultProtection` (ProtectionEditor.ts), as a JS record. -/
def createDefaultProtection : JSRecord :=
  [ ("required_pull_request_reviews",
      .obj [("dismiss_stale_reviews", .bool false),
            ("require_code_owner_reviews", .bool false),
            ("required_approving_review_count", .num 1)]),
    ("required_status_checks", .null),
    ("enforce_admins", .bool false),
    ("required_linear_history", .bool false),
    ("allow_force_pushes", .bool false),
    ("allow_deletions", .bool false),
    ("block_creations", .bool false),
    ("required_conversation_resolution", .bool true),
    ("restrictions", .null) ]

/-- The editor's `setProtection` (ProtectionEditor.ts): seeds
`state.protection` with a shallow copy `{ ...protection }` of the given
config — every own property of the seed, live-only fields included, is
copied — or with the default config when given `null`. -/
def setProtection (protection : Option JSRecord) : JSRecord :=
  match protection with
  | some p => p
  | none => createDefaultProtection

/-- JavaScript `parseInt(s, 10)`: skip leading whitespace, read an
optional sign and then a maximal run of decimal digits (trailing
garbage ignored); `none` models the `NaN` result when no digit is read. -/
def parseIntJS (s : String) : Option Int :=
  let cs := s.data.dropWhile (fun c => c = ' ' || c = '\t' || c = '\n' || c = '\r')
  let signAndRest : Int × List Char :=
    match cs with
    | '-' :: t => (-1, t)
    | '+' :: t => (1, t)
    | t => (1, t)
  let digits := signAndRest.2.takeWhile (·.isDigit)
  if digits.isEmpty then none
  else some (signAndRest.1 * (digits.foldl (fun n c => 10 * n + (c.toNat - '0'.toNat)) 0 : Nat))

/-- Model of `RequiredPullRequestReviews` (types.ts; the optional allowlists are
not touched by the modelled operations and are omitted). -/
structure RPR where
  dismiss_stale_reviews : Bool
  require_code_owner_reviews : Bool
  required_approving_review_count : Int
deriving DecidableEq

/-- Whether the string parses, via `parseInt`, as a non-negative integer
(the acceptance test `!Number.isNaN(num) && num >= 0` of the number-field
input handler in `renderFields`). -/
def parsesNonNeg (s : String) : Bool :=
  match parseIntJS s with
  | some n => n ≥ 0
  | none => false

/-- The number-field `INPUT` handler of `renderFields` together with
`updateProtectionFromField` for the `required_approving_review_count`
field: accepted input overwrites the field value and (when the
`required_pull_request_reviews` substructure is present) the config;
rejected input leaves both untouched. Returns (field value, config). -/
def numberInputEvent (val : String) (fieldValue : Int) (rpr : Option RPR) :
    Int × Option RPR :=
  match parseIntJS val with
  | some num =>
      if num ≥ 0 then
        (num, rpr.map fun r => { r with required_approving_review_count := num })
      else (fieldValue, rpr)
  | none => (fieldValue, rpr)

/-- Model of `Workflow` (github.ts); only `name` and `path` are read by the
modelled picker code. -/
structure Workflow where
  name : String
  path : String
deriving DecidableEq

/-- Model of `WorkflowItem` (ProtectionEditor.ts). -/
structure WorkflowItem where
  workflow : Workflow
  selected : Bool
deriving DecidableEq

/-- Model of `RequiredStatusChecks` (types.ts; the optional `checks` descriptors
are not touched by the modelled operations and are omitted). -/
structure RSC where
  strict : Bool
  contexts : List String
deriving DecidableEq

/-- Model of `showWorkflowModal` (ProtectionEditor.ts): one item per known
workflow, pre-selected iff its name already appears in
`required_status_checks?.contexts` (`?? false` when absent). -/
def openWorkflowModal (workflows : List Workflow) (rsc : Option RSC) :
    List WorkflowItem :=
  workflows.map fun w =>
    { workflow := w,
      selected := match rsc with
        | some r => r.contexts.contains w.name
        | none => false }

/-- The `space` branch of the modal key handler: flip the focused item. -/
def toggleWorkflowItem (items : List WorkflowItem) (i : Nat) : List WorkflowItem :=
  match items.get? i with
  | some it => items.set i { it with selected := !it.selected }
  | none => items

/-- Model of `addWorkflowChecks` (ProtectionEditor.ts): installs
`{strict: false, contexts: []}` when status checks are absent, then
pushes each given name not already contained. -/
def addWorkflowChecks (workflowNames : List String) (rsc : Option RSC) : Option RSC :=
  let r := match rsc with
    | some r => r
    | none => { strict := false, contexts := [] }
  some { r with
         contexts := workflowNames.foldl
           (fun cs n => if cs.contains n then cs else cs ++ [n]) r.contexts }

/-- The `return`/`enter` branch of the modal key handler: collect the
selected names in item (= workflow-list) order and, when non-empty,
apply `addWorkflowChecks`. -/
def confirmWorkflowModal (items : List WorkflowItem) (rsc : Option RSC) : Option RSC :=
  let selected := (items.filter (·.selected)).map (·.workflow.name)
  if selected.isEmpty then rsc else addWorkflowChecks selected rsc

/-! ## `app.ts`: the screen-flow controller state

The mutable `state` object of `runApp` and the state mutations performed
by the selection callbacks and the `show*` screen functions. Rendering
and component wiring are elided; each awaited fetch is abstracted as an
`Except String α` argument (`.ok` = resolved value, `.error` = thrown
message), and a transition returns the `state` value after the handler
(and the screen function it invokes) has completed. `showLoading`
followed by `hideLoading` nets `isLoading := false`. -/

/-- Model of `Organization` (types.ts); only `login` is read by the modelled code. -/
structure Organization where
  login : String
deriving DecidableEq

/-- Model of `Repository` fields read by the modelled app code. -/
structure Repository where
  name : String
  full_name : String
  owner_login : String
deriving DecidableEq

/-- The `Screen` union type (app.ts). -/
inductive Screen where
  | orgs | repos | branches | editor | templates | preview
deriving DecidableEq

/-- The `state` record of `runApp` (app.ts). `currentProtection = none`
models `null` (branch unprotected or not yet fetched); a live protection
is a `transformProtectionResponse`-shaped record. -/
structure AppState where
  screen : Screen
  org : Option Organization
  repos : List Repository
  selectedRepos : List Repository
  branch : Option String
  currentProtection : Option JSRecord
  proposedProtection : Option JSRecord
  results : List ApplyResult
  isLoading : Bool
  error : Option String

/-- Model of `showOrgSelector` (app.ts): switches to the orgs screen and fetches
the org list (held by the component, not `state`); a fetch error lands
in `state.error`. Nothing else in `state` is written. -/
def showOrgSelectorState (fetchOrgs : Except String (List Organization))
    (s : AppState) : AppState :=
  let s := { s with screen := .orgs }
  match fetchOrgs with
  | .ok _ => { s with isLoading := false }
  | .error m => { s with isLoading := false, error := some m }

/-- Model of `showRepoSelector` (app.ts): bails out when no org is stored;
otherwise switches to the repos screen and fetches the org's
repositories into `state.repos`. -/
def showRepoSelectorState (fetchRepos : Except String (List Repository))
    (s : AppState) : AppState :=
  match s.org with
  | none => s
  | some _ =>
    let s := { s with screen := .repos }
    match fetchRepos with
    | .ok repos => { s with repos := repos, isLoading := false }
    | .error m => { s with isLoading := false, error := some m }

/-- Model of `showBranchSelector` (app.ts): bails out when no repos are selected;
otherwise switches to the branches screen and fetches the first selected
repository's branches (held by the component, not `state`). -/
def showBranchSelectorState (fetchBranches : Except String Unit)
    (s : AppState) : AppState :=
  if s.selectedRepos.isEmpty then s
  else
    let s := { s with screen := .branches }
    match fetchBranches with
    | .ok _ => { s with isLoading := false }
    | .error m => { s with isLoading := false, error := some m }

/-- Model of `showEditor` (app.ts): switches to the editor screen; the editor
component is seeded from `state.currentProtection`, but `state` itself
only changes screen. -/
def showEditorState (s : AppState) : AppState :=
  { s with screen := .editor }

/-- The org-selected callback of `showOrgSelector`:
`state.org = org; showRepoSelector()`. -/
def selectOrg (org : Organization) (fetchRepos : Except String (List Repository))
    (s : AppState) : AppState :=
  showRepoSelectorState fetchRepos { s with org := some org }

/-- The repos-confirmed callback of `showRepoSelector`:
`state.selectedRepos = repos; showBranchSelector()`. -/
def selectRepos (repos : List Repository) (fetchBranches : Except String Unit)
    (s : AppState) : AppState :=
  showBranchSelectorState fetchBranches { s with selectedRepos := repos }

/-- The branch-selected callback of `showBranchSelector`: stores the
branch, fetches the live protection for (first repo, branch) into
`state.currentProtection` and enters the editor; on a fetch error it
surfaces the message and stays on the branches screen. -/
def selectBranch (branch : String)
    (fetchProtection : Except String (Option JSRecord)) (s : AppState) : AppState :=
  let s := { s with branch := some branch }
  match fetchProtection with
  | .ok protection =>
      showEditorState { s with currentProtection := protection, isLoading := false }
  | .error m => { s with isLoading := false, error := some m }

/-! ## `utils/templates.ts`: the template store -/

/-- Model of `Template` (types.ts): `description = none` models the absent
optional property; the timestamps are the `toISOString` strings. -/
structure Template where
  name : String
  description : Option String
  created_at : String
  updated_at : String
  protection : JSRecord

/-- The templates directory, as the list of `(name, parsed record)`
pairs backing the `name.json` files. -/
abbrev TemplateStore := List (String × Template)

/-- Model of `loadTemplate` (templates.ts): read and parse `name.json`, `none`
when the file is missing. -/
def loadTemplate : TemplateStore → String → Option Template
  | [], _ => none
  | (n, t) :: rest, name => if n = name then some t else loadTemplate rest name

/-- Model of `writeFile` of `name.json`: replace any record stored under the name. -/
def storeWrite (store : TemplateStore) (name : String) (t : Template) : TemplateStore :=
  (store.filter fun p => p.1 ≠ name) ++ [(name, t)]

/-- JavaScript `a || b` on a possibly-undefined string (`a` wins unless
it is `undefined` or the empty string). -/
def jsOrString (a : Option String) (b : Option String) : Option String :=
  match a with
  | some s => if s = "" then b else some s
  | none => b

/-- Model of `saveTemplate` (templates.ts): loads any existing template of that
name, then writes `{name, description: description || existing?.description,
created_at: existing?.created_at || now, updated_at: now, protection}`.
`now` abstracts `new Date().toISOString()`. Returns the template and the
updated store. -/
def saveTemplate (store : TemplateStore) (name : String) (protection : JSRecord)
    (description : Option String) (now : String) : Template × TemplateStore :=
  let existing := loadTemplate store name
  let template : Template :=
    { name := name,
      description := jsOrString description (existing.bind (·.description)),
      created_at := match existing with
        | some t => if t.created_at = "" then now else t.created_at
        | none => now,
      updated_at := now,
      protection := protection }
  (template, storeWrite store name template)

/-! ## `BranchProtectionInput` (types.ts)

The typed proposed-config interface, mirrored field by field. Every
field is optional; `none` models an `undefined`/omitted property. The
boolean toggles are typed `boolean`, so their values range over
`Option Bool`; the three substructures (`RequiredPullRequestReviews |
null`, `RequiredStatusChecks | null`, `BranchProtectionRestrictions |
null`) are carried as raw JS values, since the modelled transformations
pass them through without inspecting their shape. -/
structure BranchProtectionInput where
  required_pull_request_reviews : Option JSValue
  required_status_checks : Option JSValue
  enforce_admins : Option Bool
  required_linear_history : Option Bool
  allow_force_pushes : Option Bool
  allow_deletions : Option Bool
  block_creations : Option Bool
  required_conversation_resolution : Option Bool
  restrictions : Option JSValue

/-- The JS object denoted by a `BranchProtectionInput` value (an
omitted optional property reads as `undefined`, which `lookupD` also
yields for an explicitly-`undefined` binding, so binding every key is
observationally faithful). -/
def BranchProtectionInput.toJS (c : BranchProtectionInput) : JSRecord :=
  [ ("required_pull_request_reviews", c.required_pull_request_reviews.getD .undef),
    ("required_status_checks", c.required_status_checks.getD .undef),
    ("enforce_admins", (c.enforce_admins.map JSValue.bool).getD .undef),
    ("required_linear_history", (c.required_linear_history.map JSValue.bool).getD .undef),
    ("allow_force_pushes", (c.allow_force_pushes.map JSValue.bool).getD .undef),
    ("allow_deletions", (c.allow_deletions.map JSValue.bool).getD .undef),
    ("block_creations", (c.block_creations.map JSValue.bool).getD .undef),
    ("required_conversation_resolution",
      (c.required_conversation_resolution.map JSValue.bool).getD .undef),
    ("restrictions", c.restrictions.getD .undef) ]

/-! ## Derived definitions and concrete scenario inputs -/

/-- The loop body of `addWorkflowChecks` as a named function (the source
inlines it): push a name unless present. -/
def pushNew (cs : List String) (n : String) : List String :=
  if cs.contains n then cs else cs ++ [n]

/-- Specification of the tail `addWorkflowChecks` appends: the given
names in their own (external-list) order, skipping any name already in
`cs` and any duplicate of an earlier kept name (first occurrence kept). -/
def newChecks (cs : List String) : List String → List String
  | [] => []
  | n :: ns => if n ∈ cs then newChecks cs ns else n :: newChecks (cs ++ [n]) ns

/-- The claim C2 live config: `{enforce_admins: false,
required_pull_request_reviews: null}`. -/
def c2live : JSRecord :=
  [("enforce_admins", .bool false), ("required_pull_request_reviews", .null)]

/-- The C2 live config with `required_pull_request_reviews` absent
instead of `null`. -/
def c2liveAbsent : JSRecord := [("enforce_admins", .bool false)]

/-- The C2 live config with `required_pull_request_reviews` present but
explicitly `undefined` (the shape `transformProtectionResponse` produces
when the raw response omits a pass-through field). -/
def c2liveUndef : JSRecord :=
  [("enforce_admins", .bool false), ("required_pull_request_reviews", .undef)]

/-- The claim C2 proposed config. -/
def c2proposed : JSRecord :=
  [("enforce_admins", .bool true),
   ("required_pull_request_reviews",
     .obj [("dismiss_stale_reviews", .bool false),
           ("require_code_owner_reviews", .bool false),
           ("required_approving_review_count", .num 1)])]

/-- A raw protection response carrying the read-only live-only fields
(for C3). -/
def c3raw : JSRecord :=
  [("url", .str "https://api.github.com/repos/acme/api/branches/main/protection"),
   ("enforce_admins", .obj [("enabled", .bool true)]),
   ("required_signatures", .obj [("enabled", .bool true)]),
   ("lock_branch", .obj [("enabled", .bool false)])]

/-- The live config `getBranchProtection` produces from `c3raw`. -/
def c3live : JSRecord := transformProtectionResponse c3raw

/-- A repository for the C5 scenario. -/
def c5repo : Repository :=
  { name := "api", full_name := "acme/api", owner_login := "acme" }

/-- An app state deep in the flow (for C5): everything selected, a
proposed config and apply results present. -/
def c5state : AppState :=
  { screen := .preview,
    org := some ⟨"acme"⟩,
    repos := [c5repo],
    selectedRepos := [c5repo],
    branch := some "main",
    currentProtection := some [("enforce_admins", .bool false)],
    proposedProtection := some [("enforce_admins", .bool true)],
    results := [{ repo := { name := "api", full_name := "acme/api",
                            owner_login := "acme" },
                  branch := "main", success := true, error := none }],
    isLoading := false,
    error := none }

/-- The stored template for the C10 witness. -/
def c10existing : Template :=
  { name := "basic", description := some "keep me",
    created_at := "2024-01-01T00:00:00.000Z",
    updated_at := "2024-01-01T00:00:00.000Z",
    protection := [] }

/-- The template store for the C10 witness. -/
def c10store : TemplateStore := [("basic", c10existing)]

/-- The per-target result pushed by `applyProtectionToMultiple`. -/
def applyResultFor (applyOne : Target → Except String Unit) (target : Target) : ApplyResult :=
  match applyOne target with
  | .ok _ => { repo := { name := target.repo,
                         full_name := target.owner ++ "/" ++ target.repo,
                         owner_login := target.owner },
               branch := target.branch, success := true, error := none }
  | .error e => { repo := { name := target.repo,
                            full_name := target.owner ++ "/" ++ target.repo,
                            owner_login := target.owner },
                  branch := target.branch, success := false, error := some e }

lemma foldl_push_eq_append_map {α β : Type} (body : List β → α → List β) (g : α → β)
    (hbody : ∀ acc x, body acc x = acc ++ [g x]) :
    ∀ (l : List α) (init : List β), l.foldl body init = init ++ l.map g := by
  intro l
  induction l with
  | nil => intro init; simp
  | cons x xs ih =>
      intro init
      rw [List.foldl, hbody, ih, List.map]
      simp

lemma applyProtectionToMultiple_eq_map (applyOne : Target → Except String Unit)
    (targets : List Target) :
    applyProtectionToMultiple applyOne targets = targets.map (applyResultFor applyOne) := by
  unfold applyProtectionToMultiple
  refine (foldl_push_eq_append_map _ (applyResultFor applyOne) ?_ targets []).trans (by simp)
  intro acc t
  unfold applyResultFor
  cases applyOne t <;> rfl

lemma succeeded_add_failed (results : List ApplyResult) :
    succeededCount results + failedCount results = results.length := by
  induction results with
  | nil => rfl
  | cons r rs ih =>
      unfold succeededCount failedCount at ih ⊢
      cases h : r.success <;> simp [List.filter_cons, h] <;> omega

lemma applyResultFor_branch (f : Target → Except String Unit) (t : Target) :
    (applyResultFor f t).branch = t.branch := by
  unfold applyResultFor; cases f t <;> rfl

lemma applyResultFor_repo_name (f : Target → Except String Unit) (t : Target) :
    (applyResultFor f t).repo.name = t.repo := by
  unfold applyResultFor; cases f t <;> rfl

lemma applyResultFor_full_name (f : Target → Except String Unit) (t : Target) :
    (applyResultFor f t).repo.full_name = t.owner ++ "/" ++ t.repo := by
  unfold applyResultFor; cases f t <;> rfl

lemma applyResultFor_owner_login (f : Target → Except String Unit) (t : Target) :
    (applyResultFor f t).repo.owner_login = t.owner := by
  unfold applyResultFor; cases f t <;> rfl

lemma applyResultFor_success (f : Target → Except String Unit) (t : Target) :
    (applyResultFor f t).success = match f t with
      | .ok _ => true
      | .error _ => false := by
  unfold applyResultFor; cases f t <;> rfl

lemma applyResultFor_error (f : Target → Except String Unit) (t : Target) :
    (applyResultFor f t).error = match f t with
      | .ok _ => none
      | .error e => some e := by
  unfold applyResultFor; cases f t <;> rfl

/-! ## C1 -/

/-- C1: for every injected apply-one function and every ordered target
list, the batch apply returns one `ApplyResult` per target in input
order, tagged with that target's repository and branch; each entry's
success flag and error message are determined solely by `applyOne` on
its own target (so one target's failure cannot abort, skip or alter any
other target's entry), the error message is present exactly on failures,
and the derived counts satisfy `succeeded + failed = N`. -/
theorem C1_applyProtectionToMultiple_per_target_results
    (applyOne : Target → Except String Unit) (targets : List Target) :
    (applyProtectionToMultiple applyOne targets).length = targets.length ∧
    (applyProtectionToMultiple applyOne targets).map (·.branch)
      = targets.map (·.branch) ∧
    (applyProtectionToMultiple applyOne targets).map (fun r => r.repo.name)
      = targets.map (·.repo) ∧
    (applyProtectionToMultiple applyOne targets).map (fun r => r.repo.full_name)
      = targets.map (fun t => t.owner ++ "/" ++ t.repo) ∧
    (applyProtectionToMultiple applyOne targets).map (fun r => r.repo.owner_login)
      = targets.map (·.owner) ∧
    (applyProtectionToMultiple applyOne targets).map (·.success)
      = targets.map (fun t => match applyOne t with
          | .ok _ => true
          | .error _ => false) ∧
    (applyProtectionToMultiple applyOne targets).map (·.error)
      = targets.map (fun t => match applyOne t with
          | .ok _ => none
          | .error e => some e) ∧
    succeededCount (applyProtectionToMultiple applyOne targets)
      + failedCount (applyProtectionToMultiple applyOne targets) = targets.length := by
  rw [applyProtectionToMultiple_eq_map, succeeded_add_failed]
  simp only [List.map_map]
  refine ⟨List.length_map _ _, ?_, ?_, ?_, ?_, ?_, ?_, List.length_map _ _⟩
  · exact List.map_congr_left fun t _ => applyResultFor_branch applyOne t
  · exact List.map_congr_left fun t _ => applyResultFor_repo_name applyOne t
  · exact List.map_congr_left fun t _ => applyResultFor_full_name applyOne t
  · exact List.map_congr_left fun t _ => applyResultFor_owner_login applyOne t
  · exact List.map_congr_left fun t _ => applyResultFor_success applyOne t
  · exact List.map_congr_left fun t _ => applyResultFor_error applyOne t

/-! ## C2 -/

/-- C2 counterexample: on the claim's exact inputs — live
`{enforce_admins: false, required_pull_request_reviews: null}`, proposed
as stated — the computed diff does not have changed = [enforce_admins]
and added = [required_pull_request_reviews]: a `null` value is not
`undefined`, so `diffProtection` classifies the key as present on both
sides. -/
theorem C2_counterexample_null_substructure_not_added :
    ¬ ((diffProtection (some c2live) c2proposed).changed = ["enforce_admins"] ∧
       (diffProtection (some c2live) c2proposed).added
         = ["required_pull_request_reviews"]) := by
  decide

/-- C2 amended: on the claim's inputs the diff is
changed = [enforce_admins, required_pull_request_reviews] and added = []
— a substructure that is `null` on the live side and a record on the
proposed side is classified as changed. It is classified as added
exactly when the live side reads `undefined`: with the live config
omitting the key (or carrying it explicitly `undefined`, as
`transformProtectionResponse` produces when the API response omits it),
the diff is changed = [enforce_admins] and
added = [required_pull_request_reviews]. -/
theorem C2_diff_null_substructure_changed :
    diffProtection (some c2live) c2proposed
      = { added := [], removed := [],
          changed := ["enforce_admins", "required_pull_request_reviews"] } ∧
    diffProtection (some c2liveAbsent) c2proposed
      = { added := ["required_pull_request_reviews"], removed := [],
          changed := ["enforce_admins"] } ∧
    diffProtection (some c2liveUndef) c2proposed
      = { added := ["required_pull_request_reviews"], removed := [],
          changed := ["enforce_admins"] } := by
  decide

/-! ## C3 -/

/-- C3 counterexample: seeding the editor from the live config `c3live`
via `setProtection` does not discard the read-only live-only fields —
the shallow copy `{ ...protection }` keeps `url`, `required_signatures`
and `lock_branch`, so the config the editor hands out on an immediate
confirm still carries all three (none of them reads `undefined`). -/
theorem C3_counterexample_setProtection_keeps_live_fields :
    lookupD (setProtection (some c3live)) "url"
      = .str "https://api.github.com/repos/acme/api/branches/main/protection" ∧
    lookupD (setProtection (some c3live)) "required_signatures"
      = .obj [("enabled", .bool true)] ∧
    lookupD (setProtection (some c3live)) "lock_branch" = .bool false ∧
    (lookupD (setProtection (some c3live)) "url").isUndef = false ∧
    (lookupD (setProtection (some c3live)) "required_signatures").isUndef = false ∧
    (lookupD (setProtection (some c3live)) "lock_branch").isUndef = false :=
  ⟨rfl, rfl, rfl, rfl, rfl, rfl⟩

/-- C3 amended: the editor's `setProtection` keeps every field of the
seed config unchanged (a shallow copy), so a proposed config seeded from
a live config still carries `url`, `required_signatures` and
`lock_branch`; the live-only fields are instead discarded at submission
time — `cleanInput` emits exactly the nine writable keys, on which all
three live-only fields read `undefined`. -/
theorem C3_live_fields_stripped_at_submission :
    (∀ p : JSRecord, setProtection (some p) = p) ∧
    (∀ p : JSRecord, keysOf (cleanInput p)
      = ["required_pull_request_reviews", "required_status_checks",
         "enforce_admins", "required_linear_history", "allow_force_pushes",
         "allow_deletions", "block_creations",
         "required_conversation_resolution", "restrictions"]) ∧
    (∀ p : JSRecord,
      (lookupD (cleanInput p) "url").isUndef = true ∧
      (lookupD (cleanInput p) "required_signatures").isUndef = true ∧
      (lookupD (cleanInput p) "lock_branch").isUndef = true) :=
  ⟨fun _ => rfl, fun _ => rfl, fun _ => ⟨rfl, rfl, rfl⟩⟩

/-! ## C4 -/

/-- C4 counterexample: `transformProtectionResponse` applied to the
empty raw record (every boolean-flag field missing) yields `null` — not
`false` — for `enforce_admins`, and `extractEnabled` passes a malformed
string encoding through unchanged instead of degrading it to `false`. -/
theorem C4_counterexample_missing_flag_not_false :
    lookupD (transformProtectionResponse []) "enforce_admins" = .null ∧
    (∀ b : Bool, JSValue.null ≠ JSValue.bool b) ∧
    extractEnabled (.str "yes") = .str "yes" ∧
    (∀ b : Bool, JSValue.str "yes" ≠ JSValue.bool b) :=
  ⟨rfl, fun _ h => JSValue.noConfusion h, rfl, fun _ h => JSValue.noConfusion h⟩

/-- C4 amended: the normalization is total (never fails), and every
boolean-flag field of the normalized record is `extractEnabled` of the
raw field — but malformed encodings do not degrade to `false`: a missing
or `null` field becomes `null`, an object owning an `enabled` property
is coerced to that property's value, and every other value (booleans,
numbers, strings, arrays, objects without `enabled`) passes through
unchanged. -/
theorem C4_normalize_flag_passthrough :
    (∀ (raw : JSRecord) (k : String), k ∈ flagKeys →
      lookupD (transformProtectionResponse raw) k = extractEnabled (lookupD raw k)) ∧
    extractEnabled .undef = .null ∧
    extractEnabled .null = .null ∧
    (∀ b, extractEnabled (.bool b) = .bool b) ∧
    (∀ n, extractEnabled (.num n) = .num n) ∧
    (∀ s, extractEnabled (.str s) = .str s) ∧
    (∀ es, extractEnabled (.arr es) = .arr es) ∧
    (∀ fs, (keysOf fs).contains "enabled" = true →
      extractEnabled (.obj fs) = lookupD fs "enabled") ∧
    (∀ fs, (keysOf fs).contains "enabled" = false →
      extractEnabled (.obj fs) = .obj fs) := by
  refine ⟨?_, rfl, rfl, fun _ => rfl, fun _ => rfl, fun _ => rfl, fun _ => rfl,
    ?_, ?_⟩
  · intro raw k hk
    simp only [flagKeys, List.mem_cons, List.not_mem_nil, or_false] at hk
    rcases hk with rfl | rfl | rfl | rfl | rfl | rfl <;> rfl
  · intro fs h; simp only [extractEnabled, h, if_true]
  · intro fs h; simp only [extractEnabled, h, Bool.false_eq_true, if_false]

/-- C4 amended, witnessed: the flag-passthrough conjunct applied at the
raw record `{enforce_admins: "yes"}`, and the object-coercion conjuncts
applied at `{enabled: true}` and `{strict: true}`. -/
theorem C4_normalize_flag_passthrough_witness :
    lookupD (transformProtectionResponse [("enforce_admins", .str "yes")])
      "enforce_admins" = extractEnabled (.str "yes") ∧
    extractEnabled (.obj [("enabled", .bool true)]) = .bool true ∧
    extractEnabled (.obj [("strict", .bool true)]) = .obj [("strict", .bool true)] :=
  ⟨C4_normalize_flag_passthrough.1 [("enforce_admins", .str "yes")]
      "enforce_admins" (by decide),
   (C4_normalize_flag_passthrough.2.2.2.2.2.2.2.1 [("enabled", .bool true)] rfl).trans rfl,
   C4_normalize_flag_passthrough.2.2.2.2.2.2.2.2 [("strict", .bool true)] rfl⟩

/-! ## C5 -/

/-- C5 counterexample: choosing a new org from `c5state` (with the repo
fetch succeeding) does not clear the deeper-scoped state — the selected
repos, branch, proposed config and apply results all keep their old,
non-empty values. -/
theorem C5_counterexample_selectOrg_keeps_deeper_state :
    (selectOrg ⟨"globex"⟩ (.ok []) c5state).selectedRepos = [c5repo] ∧
    ([c5repo] : List Repository) ≠ [] ∧
    (selectOrg ⟨"globex"⟩ (.ok []) c5state).branch = some "main" ∧
    (selectOrg ⟨"globex"⟩ (.ok []) c5state).proposedProtection.isSome = true ∧
    (selectOrg ⟨"globex"⟩ (.ok []) c5state).results.length = 1 :=
  ⟨rfl, by simp, rfl, rfl, rfl⟩

/-- C5 amended: the selection transitions overwrite only their own slot
(plus the screen, loading flag, error slot and fetched data) and leave
all deeper-scoped state unchanged. Choosing a new org stores the org and
leaves selected repos, branch, live/proposed configs and results as they
were; choosing repos stores them and leaves org, branch, configs and
results; choosing a branch stores the branch, re-fetches the live config
(storing it and entering the editor on success; surfacing the error and
leaving the live config and screen untouched on failure) and leaves org,
selected repos, proposed config and results. Shallower selections are
never changed. -/
theorem C5_selection_transitions_frame :
    (∀ (o : Organization) (f : Except String (List Repository)) (s : AppState),
      (selectOrg o f s).org = some o ∧
      (selectOrg o f s).selectedRepos = s.selectedRepos ∧
      (selectOrg o f s).branch = s.branch ∧
      (selectOrg o f s).currentProtection = s.currentProtection ∧
      (selectOrg o f s).proposedProtection = s.proposedProtection ∧
      (selectOrg o f s).results = s.results) ∧
    (∀ (rs : List Repository) (f : Except String Unit) (s : AppState),
      (selectRepos rs f s).selectedRepos = rs ∧
      (selectRepos rs f s).org = s.org ∧
      (selectRepos rs f s).branch = s.branch ∧
      (selectRepos rs f s).currentProtection = s.currentProtection ∧
      (selectRepos rs f s).proposedProtection = s.proposedProtection ∧
      (selectRepos rs f s).results = s.results) ∧
    (∀ (b : String) (f : Except String (Option JSRecord)) (s : AppState),
      (selectBranch b f s).branch = some b ∧
      (selectBranch b f s).org = s.org ∧
      (selectBranch b f s).selectedRepos = s.selectedRepos ∧
      (selectBranch b f s).proposedProtection = s.proposedProtection ∧
      (selectBranch b f s).results = s.results) ∧
    (∀ (b : String) (p : Option JSRecord) (s : AppState),
      (selectBranch b (.ok p) s).currentProtection = p ∧
      (selectBranch b (.ok p) s).screen = .editor) ∧
    (∀ (b : String) (m : String) (s : AppState),
      (selectBranch b (.error m) s).currentProtection = s.currentProtection ∧
      (selectBranch b (.error m) s).screen = s.screen ∧
      (selectBranch b (.error m) s).error = some m) := by
  refine ⟨?_, ?_, ?_, ?_, ?_⟩
  · intro o f s
    cases f <;>
      exact ⟨rfl, rfl, rfl, rfl, rfl, rfl⟩
  · intro rs f s
    cases rs <;> cases f <;>
      exact ⟨rfl, rfl, rfl, rfl, rfl, rfl⟩
  · intro b f s
    cases f <;>
      exact ⟨rfl, rfl, rfl, rfl, rfl⟩
  · intro b p s
    exact ⟨rfl, rfl⟩
  · intro b m s
    exact ⟨rfl, rfl, rfl⟩

/-! ## C6 -/

/-- C6: editing the `required_approving_review_count` field with input
that does not parse (via `parseInt`) as a non-negative integer — e.g.
`"-1"` or non-numeric text — is a silent no-op: for every prior field
value and every prior config, both are returned unchanged. -/
theorem C6_reject_invalid_integer_input (val : String) (fieldValue : Int)
    (rpr : Option RPR) (hreject : parsesNonNeg val = false) :
    numberInputEvent val fieldValue rpr = (fieldValue, rpr) := by
  unfold numberInputEvent
  cases h : parseIntJS val with
  | none => rfl
  | some n =>
      have hneg : ¬ (n ≥ 0) := by
        simpa [parsesNonNeg, h] using hreject
      simp [hneg]

/-- C6 witnessed at the inputs `"-1"` (negative) and `"abc"`
(non-numeric), with prior field value 3 and the default PR-review
sub-record present. -/
theorem C6_reject_invalid_integer_input_witness :
    parsesNonNeg "-1" = false ∧
    numberInputEvent "-1" 3 (some ⟨false, false, 1⟩) = (3, some ⟨false, false, 1⟩) ∧
    parsesNonNeg "abc" = false ∧
    numberInputEvent "abc" 3 (some ⟨false, false, 1⟩) = (3, some ⟨false, false, 1⟩) :=
  ⟨by decide,
   C6_reject_invalid_integer_input "-1" 3 (some ⟨false, false, 1⟩) (by decide),
   by decide,
   C6_reject_invalid_integer_input "abc" 3 (some ⟨false, false, 1⟩) (by decide)⟩

/-! ## C7 -/

lemma foldl_pushNew_eq_newChecks (names : List String) :
    ∀ cs, names.foldl pushNew cs = cs ++ newChecks cs names := by
  induction names with
  | nil => intro cs; simp [newChecks]
  | cons n ns ih =>
      intro cs
      rw [List.foldl]
      by_cases h : n ∈ cs
      · rw [show pushNew cs n = cs from by simp [pushNew, h], ih cs,
            show newChecks cs (n :: ns) = newChecks cs ns from by simp [newChecks, h]]
      · rw [show pushNew cs n = cs ++ [n] from by simp [pushNew, h], ih (cs ++ [n]),
            show newChecks cs (n :: ns) = n :: newChecks (cs ++ [n]) ns from by
              simp [newChecks, h]]
        simp

lemma mem_newChecks (names : List String) :
    ∀ (cs : List String) (m : String),
      m ∈ newChecks cs names ↔ (m ∈ names ∧ m ∉ cs) := by
  induction names with
  | nil => intro cs m; simp [newChecks]
  | cons n ns ih =>
      intro cs m
      by_cases h : n ∈ cs
      · rw [show newChecks cs (n :: ns) = newChecks cs ns from by simp [newChecks, h],
            ih cs m]
        constructor
        · rintro ⟨hm, hcs⟩; exact ⟨List.mem_cons_of_mem _ hm, hcs⟩
        · rintro ⟨hm, hcs⟩
          rcases List.mem_cons.mp hm with rfl | hm'
          · exact absurd h hcs
          · exact ⟨hm', hcs⟩
      · rw [show newChecks cs (n :: ns) = n :: newChecks (cs ++ [n]) ns from by
              simp [newChecks, h]]
        constructor
        · intro hmem
          rcases List.mem_cons.mp hmem with rfl | hm'
          · exact ⟨List.mem_cons_self _ _, h⟩
          · rcases (ih (cs ++ [n]) m).mp hm' with ⟨hm'', hcs⟩
            exact ⟨List.mem_cons_of_mem _ hm'',
              fun hc => hcs (List.mem_append_left _ hc)⟩
        · rintro ⟨hm, hcs⟩
          rcases List.mem_cons.mp hm with rfl | hm'
          · exact List.mem_cons_self _ _
          · by_cases hmn : m = n
            · subst hmn; exact List.mem_cons_self _ _
            · refine List.mem_cons_of_mem _ ((ih (cs ++ [n]) m).mpr ⟨hm', ?_⟩)
              intro hc
              rcases List.mem_append.mp hc with hc' | hc'
              · exact hcs hc'
              · exact hmn (List.mem_singleton.mp hc')

lemma newChecks_sublist (names : List String) :
    ∀ cs, List.Sublist (newChecks cs names) names := by
  induction names with
  | nil => intro cs; simp [newChecks]
  | cons n ns ih =>
      intro cs
      by_cases h : n ∈ cs
      · rw [show newChecks cs (n :: ns) = newChecks cs ns from by simp [newChecks, h]]
        exact (ih cs).cons n
      · rw [show newChecks cs (n :: ns) = n :: newChecks (cs ++ [n]) ns from by
              simp [newChecks, h]]
        exact (ih (cs ++ [n])).cons₂ n

lemma newChecks_nodup (names : List String) :
    ∀ cs, (newChecks cs names).Nodup := by
  induction names with
  | nil => intro cs; simp [newChecks]
  | cons n ns ih =>
      intro cs
      by_cases h : n ∈ cs
      · rw [show newChecks cs (n :: ns) = newChecks cs ns from by simp [newChecks, h]]
        exact ih cs
      · rw [show newChecks cs (n :: ns) = n :: newChecks (cs ++ [n]) ns from by
              simp [newChecks, h]]
        refine List.nodup_cons.mpr ⟨?_, ih (cs ++ [n])⟩
        intro hmem
        exact ((mem_newChecks ns (cs ++ [n]) n).mp hmem).2
          (List.mem_append_right _ (List.mem_singleton.mpr rfl))

lemma addWorkflowChecks_some (names : List String) (rsc : RSC) :
    addWorkflowChecks names (some rsc)
      = some { strict := rsc.strict,
               contexts := rsc.contexts ++ newChecks rsc.contexts names } := by
  simp only [addWorkflowChecks]
  rw [← foldl_pushNew_eq_newChecks]
  rfl

/-- C7: opening the workflow picker pre-selects exactly the checks whose
names already appear in `statusChecks.contexts`. Confirming yields the
existing contexts followed by exactly `newChecks` of the selected names
— the selected names in the external list's order, skipping names
already present and duplicates — so the appended tail is a duplicate-free
sublist of the selected-name list (external-list order preserved) whose
members are exactly the selected names not already in the contexts. The
same closed form is proved for the full confirm key handler, whose
selected-name list is drawn from the items in list order. On the claim's
scenario — contexts `["ci/build"]`, external checks `ci/build` and
`ci/test`, selecting `ci/test` and confirming — the contexts become
`["ci/build", "ci/test"]`; a three-check scenario with two new
selections toggled in reverse order still appends them in the external
list's order. -/
theorem C7_workflow_picker :
    (∀ (ws : List Workflow) (rsc : Option RSC),
      (openWorkflowModal ws rsc).map (·.workflow) = ws ∧
      (openWorkflowModal ws rsc).map (·.selected)
        = ws.map (fun w => match rsc with
            | some r => r.contexts.contains w.name
            | none => false)) ∧
    (∀ (names : List String) (rsc : RSC),
      ∃ r', addWorkflowChecks names (some rsc) = some r' ∧
        r'.strict = rsc.strict ∧
        r'.contexts = rsc.contexts ++ newChecks rsc.contexts names ∧
        List.Sublist (newChecks rsc.contexts names) names ∧
        (newChecks rsc.contexts names).Nodup ∧
        (∀ m, m ∈ newChecks rsc.contexts names ↔ (m ∈ names ∧ m ∉ rsc.contexts))) ∧
    (∀ (items : List WorkflowItem) (rsc : RSC),
      ∃ r', confirmWorkflowModal items (some rsc) = some r' ∧
        r'.strict = rsc.strict ∧
        r'.contexts = rsc.contexts ++
          newChecks rsc.contexts ((items.filter (·.selected)).map (·.workflow.name))) ∧
    ((openWorkflowModal [⟨"ci/build", "b.yml"⟩, ⟨"ci/test", "t.yml"⟩]
        (some { strict := false, contexts := ["ci/build"] })).map (·.selected)
      = [true, false] ∧
     confirmWorkflowModal
        (toggleWorkflowItem
          (openWorkflowModal [⟨"ci/build", "b.yml"⟩, ⟨"ci/test", "t.yml"⟩]
            (some { strict := false, contexts := ["ci/build"] })) 1)
        (some { strict := false, contexts := ["ci/build"] })
      = some { strict := false, contexts := ["ci/build", "ci/test"] }) ∧
    confirmWorkflowModal
        (toggleWorkflowItem
          (toggleWorkflowItem
            (openWorkflowModal
              [⟨"ci/build", "b.yml"⟩, ⟨"ci/test", "t.yml"⟩, ⟨"ci/lint", "l.yml"⟩]
              (some { strict := false, contexts := ["ci/build"] })) 2) 1)
        (some { strict := false, contexts := ["ci/build"] })
      = some { strict := false, contexts := ["ci/build", "ci/test", "ci/lint"] } := by
  refine ⟨?_, ?_, ?_, by decide, by decide⟩
  · intro ws rsc
    refine ⟨?_, ?_⟩
    · simp only [openWorkflowModal, List.map_map]
      exact (List.map_congr_left fun w _ => rfl).trans (List.map_id ws)
    · simp [openWorkflowModal, List.map_map]
  · intro names rsc
    exact ⟨_, addWorkflowChecks_some names rsc, rfl, rfl,
      newChecks_sublist names rsc.contexts, newChecks_nodup names rsc.contexts,
      fun m => mem_newChecks names rsc.contexts m⟩
  · intro items rsc
    cases hsel : (items.filter (·.selected)).map (·.workflow.name) with
    | nil =>
        refine ⟨rsc, ?_, rfl, ?_⟩
        · simp [confirmWorkflowModal, hsel]
        · simp [newChecks]
    | cons n ns =>
        refine ⟨{ strict := rsc.strict,
                  contexts := rsc.contexts ++ newChecks rsc.contexts (n :: ns) },
                ?_, rfl, rfl⟩
        simp only [confirmWorkflowModal, hsel, List.isEmpty_cons,
          Bool.false_eq_true, if_false]
        exact addWorkflowChecks_some (n :: ns) rsc

/-- C7 witnessed: the append conjunct applied at names
`["ci/test", "ci/lint"]` and status checks
`{strict: false, contexts: ["ci/build"]}` yields the contexts
`["ci/build", "ci/test", "ci/lint"]` — both new names appended after the
existing contexts, in the given order. -/
theorem C7_workflow_picker_witness :
    ((addWorkflowChecks ["ci/test", "ci/lint"]
        (some { strict := false, contexts := ["ci/build"] })).getD
          { strict := false, contexts := [] }).contexts
      = ["ci/build", "ci/test", "ci/lint"] := by
  rcases C7_workflow_picker.2.1 ["ci/test", "ci/lint"]
      { strict := false, contexts := ["ci/build"] }
    with ⟨r', heq, _, hctx, _, _, _⟩
  rw [heq, Option.getD_some, hctx]
  decide

/-! ## C8 -/

/-- C8: for every typed `BranchProtectionInput` value `c`, composing
`toSubmission` (the `cleanInput` construction), then `normalize`
(`transformProtectionResponse`), then `toSubmission` again yields the
same value as a single `toSubmission` on each of the six boolean-flag
fields — normalization is idempotent over the submission shape. -/
theorem C8_toSubmission_normalize_roundtrip (c : BranchProtectionInput) :
    lookupD (cleanInput (transformProtectionResponse (cleanInput c.toJS)))
        "enforce_admins"
      = lookupD (cleanInput c.toJS) "enforce_admins" ∧
    lookupD (cleanInput (transformProtectionResponse (cleanInput c.toJS)))
        "required_linear_history"
      = lookupD (cleanInput c.toJS) "required_linear_history" ∧
    lookupD (cleanInput (transformProtectionResponse (cleanInput c.toJS)))
        "allow_force_pushes"
      = lookupD (cleanInput c.toJS) "allow_force_pushes" ∧
    lookupD (cleanInput (transformProtectionResponse (cleanInput c.toJS)))
        "allow_deletions"
      = lookupD (cleanInput c.toJS) "allow_deletions" ∧
    lookupD (cleanInput (transformProtectionResponse (cleanInput c.toJS)))
        "block_creations"
      = lookupD (cleanInput c.toJS) "block_creations" ∧
    lookupD (cleanInput (transformProtectionResponse (cleanInput c.toJS)))
        "required_conversation_resolution"
      = lookupD (cleanInput c.toJS) "required_conversation_resolution" := by
  obtain ⟨rpr, rsc, ea, rlh, afp, ad, bc, rcr, res⟩ := c
  refine ⟨?_, ?_, ?_, ?_, ?_, ?_⟩
  · cases ea with
    | none => rfl
    | some b => rfl
  · cases rlh with
    | none => rfl
    | some b => rfl
  · cases afp with
    | none => rfl
    | some b => rfl
  · cases ad with
    | none => rfl
    | some b => rfl
  · cases bc with
    | none => rfl
    | some b => rfl
  · cases rcr with
    | none => rfl
    | some b => rfl

/-! ## C9 and C10 -/

lemma loadTemplate_storeWrite (store : TemplateStore) (name : String)
    (t : Template) : loadTemplate (storeWrite store name t) name = some t := by
  induction store with
  | nil => simp [storeWrite, loadTemplate]
  | cons p rest ih =>
      by_cases h : p.1 = name
      · simpa [storeWrite, List.filter_cons, h] using ih
      · obtain ⟨pn, pt⟩ := p
        simp only at h
        simpa [storeWrite, List.filter_cons, h, loadTemplate] using ih

/-- C9: saving a template under a fresh name stamps both timestamps with
the save time; re-saving under the same name preserves the first save's
`created_at` (a `toISOString` value, hence non-empty) and sets
`updated_at` to the new save time. -/
theorem C9_template_timestamps (store : TemplateStore) (name : String)
    (prot1 prot2 : JSRecord) (desc1 desc2 : Option String) (t0 t1 : String)
    (hnew : loadTemplate store name = none) (ht0 : t0 ≠ "") :
    (saveTemplate store name prot1 desc1 t0).1.created_at = t0 ∧
    (saveTemplate store name prot1 desc1 t0).1.updated_at = t0 ∧
    (saveTemplate (saveTemplate store name prot1 desc1 t0).2
        name prot2 desc2 t1).1.created_at = t0 ∧
    (saveTemplate (saveTemplate store name prot1 desc1 t0).2
        name prot2 desc2 t1).1.updated_at = t1 := by
  have h2 : loadTemplate (saveTemplate store name prot1 desc1 t0).2 name
      = some (saveTemplate store name prot1 desc1 t0).1 :=
    loadTemplate_storeWrite store name _
  refine ⟨?_, rfl, ?_, rfl⟩
  · simp [saveTemplate, hnew]
  · simp only [saveTemplate, hnew]
    rw [loadTemplate_storeWrite]
    simp [ht0]

/-- C9 witnessed: saving `"basic"` into the empty store at one time and
re-saving at a later time keeps the first `created_at` and takes the new
`updated_at`. -/
theorem C9_template_timestamps_witness :
    loadTemplate ([] : TemplateStore) "basic" = none ∧
    ("2024-01-01T00:00:00.000Z" : String) ≠ "" ∧
    (saveTemplate
        (saveTemplate [] "basic" [("enforce_admins", .bool false)] none
          "2024-01-01T00:00:00.000Z").2
        "basic" [("enforce_admins", .bool true)] none
        "2024-01-02T00:00:00.000Z").1.created_at = "2024-01-01T00:00:00.000Z" ∧
    (saveTemplate
        (saveTemplate [] "basic" [("enforce_admins", .bool false)] none
          "2024-01-01T00:00:00.000Z").2
        "basic" [("enforce_admins", .bool true)] none
        "2024-01-02T00:00:00.000Z").1.updated_at = "2024-01-02T00:00:00.000Z" :=
  ⟨rfl, by decide,
   (C9_template_timestamps [] "basic" [("enforce_admins", .bool false)]
      [("enforce_admins", .bool true)] none none
      "2024-01-01T00:00:00.000Z" "2024-01-02T00:00:00.000Z" rfl (by decide)).2.2.1,
   (C9_template_timestamps [] "basic" [("enforce_admins", .bool false)]
      [("enforce_admins", .bool true)] none none
      "2024-01-01T00:00:00.000Z" "2024-01-02T00:00:00.000Z" rfl (by decide)).2.2.2⟩

/-- C10: re-saving a template stored under `name` with no description
(or an empty one) keeps the previously stored description; a non-empty
description replaces it. -/
theorem C10_template_description_preserved (store : TemplateStore) (name : String)
    (prot : JSRecord) (desc : Option String) (now : String) (tEx : Template)
    (hex : loadTemplate store name = some tEx) :
    ((desc = none ∨ desc = some "") →
      (saveTemplate store name prot desc now).1.description = tEx.description) ∧
    (∀ d : String, desc = some d → d ≠ "" →
      (saveTemplate store name prot desc now).1.description = some d) := by
  constructor
  · rintro (rfl | rfl) <;> simp [saveTemplate, hex, jsOrString]
  · rintro d rfl hd
    simp [saveTemplate, hex, jsOrString, hd]

/-- C10 witnessed: re-saving `"basic"` (stored with description
`"keep me"`) with no description keeps `"keep me"`, and with the
description `"fresh"` replaces it. -/
theorem C10_template_description_preserved_witness :
    (saveTemplate c10store "basic" [] none
        "2024-01-02T00:00:00.000Z").1.description = some "keep me" ∧
    (saveTemplate c10store "basic" [] (some "fresh")
        "2024-01-02T00:00:00.000Z").1.description = some "fresh" :=
  ⟨(C10_template_description_preserved c10store "basic" [] none
      "2024-01-02T00:00:00.000Z" c10existing rfl).1 (Or.inl rfl),
   (C10_template_description_preserved c10store "basic" [] (some "fresh")
      "2024-01-02T00:00:00.000Z" c10existing rfl).2 "fresh" rfl (by decide)⟩

end RepoProtector
